import Mathlib

/-!
Verification development for the HM-Scrapers pricing-ingestion pipeline.

The Python sources are shallowly embedded as executable Lean definitions:

* monetary and percentage values are exact rationals (the sources use
  `decimal.Decimal` / floats; arithmetic is modelled exactly over ℚ);
* calendar dates are modelled as integer day indices, so `timedelta(days = n)`
  is integer addition and date comparison is integer comparison;
* JSON fields that may be absent, JSON-null, or a value are modelled by the
  three-state type `JField`; fields read through `dict.get` (absent and null
  collapse to Python `None`) are modelled by `Option`;
* the MySQL tables are modelled as lists of row structures, and the
  `INSERT ... ON DUPLICATE KEY UPDATE` statements as a first-matching-key
  replacement (the tables carry a unique key on `(property_id, record_date)`,
  respectively on the run id);
* fallible code returns `Except` / `Option`.
-/

/-- Three-state model of a JSON object member: the key may be absent, present
with JSON null, or present with a value.  In Python, `obj.get(k)` returns
`None` in the first two cases. -/
inductive JField (α : Type) where
  | absent : JField α
  | null : JField α
  | val (v : α) : JField α
deriving DecidableEq, Repr

/-- Python `obj.get(k)` followed by the truthiness / `is not None` test the
loaders apply to `{value: number}` wrapper fields: only a present, non-null
wrapper (a non-empty dict, hence truthy) passes; absent and null give `None`. -/
def JField.toOption : JField α → Option α
  | .absent => none
  | .null => none
  | .val v => some v

/-- From `src/mappers/mapper.py` and `src/mappers/wyndham_mapper.py`
(`percent_to_decimal`): convert a percentage integer to a decimal fraction
(e.g. 20 becomes 0.20); `None` maps to `None`. -/
def percent_to_decimal (value : Option Int) : Option ℚ :=
  match value with
  | none => none
  | some v => some ((v : ℚ) / 100)

/-- Model of `record_date.strftime("%A")`: the day of week is a pure function
of the day index.  The claims never inspect the concrete weekday, only that it
is derived from the date. -/
def dayOfWeekOf (d : Int) : Int := d % 7

/-- The canonical mapped record.  `src/models/wyndham_model.py` declares
`WyndhamUpdateRecord` with exactly these data fields; the sibling
`UpdateRecord` built by `src/mappers/mapper.py` carries the same field set.
Wall-clock timestamps (`record_timestamp`, `created_at`, `updated_at`) are
outside the model. -/
structure UpdateRecord where
  property_uuid : String
  record_date : Int
  day_of_week : Int
  algo_output_price : Option ℚ
  standard_price : Option ℚ
  standard_previous_price : Option ℚ
  standard_price_change : Option ℚ
  competitor_set_avg_price : Option ℚ
  occupancy : Option ℚ
  forecasted_occupancy : Option ℚ
  updated_by_rm : Bool
  revenue_per_room : Option ℚ
  ly_occupancy : Option ℚ
  ly_adr : Option ℚ
  on_the_books_occ : Option ℚ
  arrivals_forecast : Option Int
  departure_forecast : Option Int
  total_rooms : Option Int
  ooo : Option Int
  otb_rooms : Option Int
  avl_rooms : Option Int
deriving DecidableEq, Repr

/-- `src/models/wyndham_model.py`: the Wyndham record has the same fields. -/
abbrev WyndhamUpdateRecord := UpdateRecord

/-- From `src/mappers/wyndham_mapper.py` (`map_wyndham_json_to_update_record`).
The date string has already been parsed to a day index (`datetime.strptime`
is external); every other argument is passed exactly as in the source.  The
last-year ADR is derived from last-year revenue, last-year booking percent and
physical capacity, guarded by `ly_occupied_rooms > 0`; `avl_rooms` is
`physicalCapacity - outOfOrder - onBook` only when all three are present. -/
def map_wyndham_json_to_update_record
    (property_uuid : String)
    (record_date : Int)
    (price_value : Option ℚ)
    (previousRate_value : Option ℚ)
    (priceDiff_value : Option ℚ)
    (compSetAvg : Option ℚ)
    (onBookPercent : Option Int)
    (forecastPercent : Option Int)
    (updated_by_rm : Bool)
    (lyBookingPercent : Option Int)
    (lyRevenue : Option ℚ)
    (arrivals : Option Int)
    (departures : Option Int)
    (physicalCapacity : Option Int)
    (outOfOrder : Option Int)
    (onBook : Option Int) : WyndhamUpdateRecord :=
  let ly_adr : Option ℚ :=
    match lyRevenue, lyBookingPercent, physicalCapacity with
    | some rev, some pct, some cap =>
        let ly_occupancy_decimal : ℚ := (pct : ℚ) / 100
        let ly_occupied_rooms : ℚ := ly_occupancy_decimal * (cap : ℚ)
        if ly_occupied_rooms > 0 then some (rev / ly_occupied_rooms) else none
    | _, _, _ => none
  { property_uuid := property_uuid
    record_date := record_date
    day_of_week := dayOfWeekOf record_date
    algo_output_price := none
    standard_price := price_value
    standard_previous_price := previousRate_value
    standard_price_change := priceDiff_value
    competitor_set_avg_price := compSetAvg
    occupancy := percent_to_decimal onBookPercent
    forecasted_occupancy := percent_to_decimal forecastPercent
    updated_by_rm := updated_by_rm
    revenue_per_room := none
    ly_occupancy := percent_to_decimal lyBookingPercent
    ly_adr := ly_adr
    on_the_books_occ := percent_to_decimal onBookPercent
    arrivals_forecast := arrivals
    departure_forecast := departures
    total_rooms := physicalCapacity
    ooo := outOfOrder
    otb_rooms := onBook
    avl_rooms :=
      match physicalCapacity, outOfOrder, onBook with
      | some pc, some oo, some ob => some (pc - oo - ob)
      | _, _, _ => none }

/-- From `src/mappers/mapper.py` (`map_json_to_update_record`).  Identical to
the Wyndham mapper except that the last-year ADR is the directly supplied
`lyAdr` argument — no derivation from revenue and capacity happens here. -/
def map_json_to_update_record
    (property_uuid : String)
    (record_date : Int)
    (price_value : Option ℚ)
    (previousRate_value : Option ℚ)
    (priceDiff_value : Option ℚ)
    (compSetAvg : Option ℚ)
    (onBookPercent : Option Int)
    (forecastPercent : Option Int)
    (updated_by_rm : Bool)
    (lyBookingPercent : Option Int)
    (lyAdr : Option ℚ)
    (arrivals : Option Int)
    (departures : Option Int)
    (physicalCapacity : Option Int)
    (outOfOrder : Option Int)
    (onBook : Option Int) : UpdateRecord :=
  { property_uuid := property_uuid
    record_date := record_date
    day_of_week := dayOfWeekOf record_date
    algo_output_price := none
    standard_price := price_value
    standard_previous_price := previousRate_value
    standard_price_change := priceDiff_value
    competitor_set_avg_price := compSetAvg
    occupancy := percent_to_decimal onBookPercent
    forecasted_occupancy := percent_to_decimal forecastPercent
    updated_by_rm := updated_by_rm
    revenue_per_room := none
    ly_occupancy := percent_to_decimal lyBookingPercent
    ly_adr := lyAdr
    on_the_books_occ := percent_to_decimal onBookPercent
    arrivals_forecast := arrivals
    departure_forecast := departures
    total_rooms := physicalCapacity
    ooo := outOfOrder
    otb_rooms := onBook
    avl_rooms :=
      match physicalCapacity, outOfOrder, onBook with
      | some pc, some oo, some ob => some (pc - oo - ob)
      | _, _, _ => none }


/-! ## The `update_records` table and the two save operations -/

/-- A row of the `update_records` table: the columns written by
`src/db_operations.py` (`save_pricing_data`) together with the inventory
columns additionally written by
`src/wyndham/wyndham_db_operations.py` (`save_pricing_data`).  Columns a
given INSERT does not mention stay at their NULL default.  Wall-clock columns
(`created_at`, `updated_at`, `record_timestamp`) are outside the model. -/
structure UpdateRecordsRow where
  property_id : Nat
  scraping_run_id : Option Nat
  record_date : Int
  day_of_week : Option Int
  algo_output_price : Option ℚ
  standard_price : Option ℚ
  standard_previous_price : Option ℚ
  standard_price_change : Option ℚ
  competitor_set_avg_price : Option ℚ
  occupancy : Option ℚ
  forecasted_occupancy : Option ℚ
  updated_by_rm : Bool
  revenue_per_room : Option ℚ
  ly_occupancy : Option ℚ
  ly_adr : Option ℚ
  on_the_books_occ : Option ℚ
  arrivals_forecast : Option Int
  departure_forecast : Option Int
  total_rooms : Option Int
  ooo : Option Int
  otb_rooms : Option Int
  avl_rooms : Option Int
deriving DecidableEq, Repr

/-- The natural key of `update_records`: the unique key on
`(property_id, record_date)` that `ON DUPLICATE KEY UPDATE` conflicts on. -/
def sameKey (a b : UpdateRecordsRow) : Bool :=
  a.property_id == b.property_id && a.record_date == b.record_date

/-- `INSERT ... ON DUPLICATE KEY UPDATE`: if a row with the new row's key
exists, the conflicting row is rewritten by `merge old new`; otherwise the new
row is appended.  The table's unique key guarantees at most one conflict. -/
def upsertWith (merge : UpdateRecordsRow → UpdateRecordsRow → UpdateRecordsRow)
    (t : List UpdateRecordsRow) (new : UpdateRecordsRow) : List UpdateRecordsRow :=
  match t with
  | [] => [new]
  | r :: rs => if sameKey r new then merge r new :: rs else r :: upsertWith merge rs new

/-- The `ON DUPLICATE KEY UPDATE` column list of the legacy
`save_pricing_data` in `src/db_operations.py` (lines 352–366): the pricing,
occupancy, revenue and forecast columns take the new values; every other
column of the existing row is kept. -/
def mergeLegacy (old new : UpdateRecordsRow) : UpdateRecordsRow :=
  { old with
    algo_output_price := new.algo_output_price
    standard_price := new.standard_price
    standard_previous_price := new.standard_previous_price
    standard_price_change := new.standard_price_change
    competitor_set_avg_price := new.competitor_set_avg_price
    occupancy := new.occupancy
    forecasted_occupancy := new.forecasted_occupancy
    ly_occupancy := new.ly_occupancy
    ly_adr := new.ly_adr
    on_the_books_occ := new.on_the_books_occ
    revenue_per_room := new.revenue_per_room
    arrivals_forecast := new.arrivals_forecast
    departure_forecast := new.departure_forecast }

/-- The `ON DUPLICATE KEY UPDATE` column list of the Wyndham
`save_pricing_data` in `src/wyndham/wyndham_db_operations.py`
(lines 615–634): all comparable data columns take the new values; the
existing row keeps `scraping_run_id`, `day_of_week` and the creation
timestamps. -/
def mergeWyndham (old new : UpdateRecordsRow) : UpdateRecordsRow :=
  { old with
    algo_output_price := new.algo_output_price
    standard_price := new.standard_price
    standard_previous_price := new.standard_previous_price
    standard_price_change := new.standard_price_change
    competitor_set_avg_price := new.competitor_set_avg_price
    occupancy := new.occupancy
    forecasted_occupancy := new.forecasted_occupancy
    updated_by_rm := new.updated_by_rm
    revenue_per_room := new.revenue_per_room
    ly_occupancy := new.ly_occupancy
    ly_adr := new.ly_adr
    on_the_books_occ := new.on_the_books_occ
    arrivals_forecast := new.arrivals_forecast
    departure_forecast := new.departure_forecast
    total_rooms := new.total_rooms
    ooo := new.ooo
    otb_rooms := new.otb_rooms
    avl_rooms := new.avl_rooms }

/-- From `src/db_operations.py` (`get_previous_standard_price`): the
`standard_price` of the most recent `update_records` row of the same property
strictly before `current_date` whose `standard_price` is not NULL
(`ORDER BY record_date DESC LIMIT 1`). -/
def get_previous_standard_price (t : List UpdateRecordsRow) (property_id : Nat)
    (current_date : Int) : Option ℚ :=
  let candidates := t.filter (fun r =>
    r.property_id == property_id && decide (r.record_date < current_date)
      && r.standard_price.isSome)
  let best := candidates.foldl (fun acc r =>
    match acc with
    | none => some r
    | some b => if decide (b.record_date < r.record_date) then some r else some b) none
  best.bind (·.standard_price)

/-- The recomputed delta of the legacy save path (`src/db_operations.py`
lines 295–306): `current − previous` when both are known, NULL otherwise. -/
def legacyPriceChange (current_price previous_standard_price : Option ℚ) : Option ℚ :=
  match current_price, previous_standard_price with
  | some c, some p => some (c - p)
  | _, _ => none

/-- One already-parsed element of the `scraped_data_list` consumed by the
legacy `save_pricing_data` in `src/db_operations.py`.  The string-cleaning
helpers `parse_date`, `parse_price`, `parse_occupancy`, `parse_int` are
modelled by presenting their results (`None` on unparseable input) directly. -/
structure LegacyScrapedEntry where
  dateOnly : Option Int
  dayOfWeek : Option Int
  currentPrice : Option ℚ
  systemPrice : Option ℚ
  competitorPrice : Option ℚ
  occBooksPct : Option ℚ
  occForecastPct : Option ℚ
  occLyPct : Option ℚ
  stlyAdr : Option ℚ
  revenue : Option ℚ
  availableRooms : Option Int
  arrivals : Option Int
  departures : Option Int
deriving DecidableEq, Repr

/-- The row the legacy `save_pricing_data` writes for one scraped entry,
given the previously committed table `t0` it reads the prior price from:
`standard_previous_price` is the fetched prior stored price and
`standard_price_change` is recomputed as `current − previous`, ignoring any
delta in the scraped data; `revenue_per_room` is `revenue / available_rooms`
when both are present and rooms are positive.  Columns the INSERT does not
mention keep their NULL defaults. -/
def legacyRowFor (t0 : List UpdateRecordsRow) (run_id : Option Nat)
    (property_id : Nat) (record_date : Int) (e : LegacyScrapedEntry) :
    UpdateRecordsRow :=
  let previous_standard_price := get_previous_standard_price t0 property_id record_date
  let standard_price_change := legacyPriceChange e.currentPrice previous_standard_price
  let revenue_per_room : Option ℚ :=
    match e.revenue, e.availableRooms with
    | some rev, some rooms => if 0 < rooms then some (rev / (rooms : ℚ)) else none
    | _, _ => none
  { property_id := property_id
    scraping_run_id := run_id
    record_date := record_date
    day_of_week := e.dayOfWeek
    algo_output_price := e.systemPrice
    standard_price := e.currentPrice
    standard_previous_price := previous_standard_price
    standard_price_change := standard_price_change
    competitor_set_avg_price := e.competitorPrice
    occupancy := e.occBooksPct
    forecasted_occupancy := e.occForecastPct
    updated_by_rm := false
    revenue_per_room := revenue_per_room
    ly_occupancy := e.occLyPct
    ly_adr := e.stlyAdr
    on_the_books_occ := e.occBooksPct
    arrivals_forecast := e.arrivals
    departure_forecast := e.departures
    total_rooms := none
    ooo := none
    otb_rooms := none
    avl_rooms := none }

namespace DbOperations

/-- From `src/db_operations.py` (`save_pricing_data`): iterate over the
scraped entries, skip entries whose date did not parse, and upsert one row per
remaining entry, counting the saves.  `get_previous_standard_price` runs on a
separate connection, so within a batch it sees the previously committed table
`t0`, not the batch's own uncommitted upserts; the upserts accumulate in the
working table that is committed at the end. -/
def save_pricing_data (t0 : List UpdateRecordsRow) (run_id : Option Nat)
    (property_id : Nat) (scraped_data_list : List LegacyScrapedEntry) :
    List UpdateRecordsRow × Nat :=
  scraped_data_list.foldl (fun acc e =>
    match e.dateOnly with
    | none => acc
    | some record_date =>
        (upsertWith mergeLegacy acc.1 (legacyRowFor t0 run_id property_id record_date e),
         acc.2 + 1)) (t0, 0)

end DbOperations

/-- The `properties` table as far as the saves consult it: the UUID to
numeric-id mapping read by `get_property_id_by_uuid`
(`src/wyndham/wyndham_db_operations.py`). -/
def get_property_id_by_uuid (properties : List (String × Nat)) (uuid : String) :
    Option Nat :=
  (properties.find? (fun p => p.1 == uuid)).map (·.2)

/-- The row the Wyndham `save_pricing_data` inserts for a mapped record
(`src/wyndham/wyndham_db_operations.py` lines 637–662): every data field of
the `WyndhamUpdateRecord` is written as given — in particular
`standard_price_change` is stored exactly as carried by the record. -/
def wyndhamRowFor (property_id : Nat) (run_id : Option Nat)
    (r : WyndhamUpdateRecord) : UpdateRecordsRow :=
  { property_id := property_id
    scraping_run_id := run_id
    record_date := r.record_date
    day_of_week := some r.day_of_week
    algo_output_price := r.algo_output_price
    standard_price := r.standard_price
    standard_previous_price := r.standard_previous_price
    standard_price_change := r.standard_price_change
    competitor_set_avg_price := r.competitor_set_avg_price
    occupancy := r.occupancy
    forecasted_occupancy := r.forecasted_occupancy
    updated_by_rm := r.updated_by_rm
    revenue_per_room := r.revenue_per_room
    ly_occupancy := r.ly_occupancy
    ly_adr := r.ly_adr
    on_the_books_occ := r.on_the_books_occ
    arrivals_forecast := r.arrivals_forecast
    departure_forecast := r.departure_forecast
    total_rooms := r.total_rooms
    ooo := r.ooo
    otb_rooms := r.otb_rooms
    avl_rooms := r.avl_rooms }

namespace WyndhamDBOperations

/-- From `src/wyndham/wyndham_db_operations.py` (`save_pricing_data`): look
the property id up by UUID (failure returns `false` and leaves the table
unchanged), then upsert the record's row.  No delta is recomputed: the
record's `standard_price_change` is persisted verbatim. -/
def save_pricing_data (properties : List (String × Nat))
    (t : List UpdateRecordsRow) (update_record : WyndhamUpdateRecord)
    (scraping_run_id : Option Nat) : List UpdateRecordsRow × Bool :=
  match get_property_id_by_uuid properties update_record.property_uuid with
  | none => (t, false)
  | some property_id =>
      (upsertWith mergeWyndham t (wyndhamRowFor property_id scraping_run_id update_record),
       true)

end WyndhamDBOperations

/-! ## The `scraping_runs` table and the run tracker -/

/-- A row of the `scraping_runs` table as touched by `create_scraping_run`
and `update_scraping_run` (both `src/db_operations.py` and
`src/wyndham/wyndham_db_operations.py`). -/
structure ScrapingRunRow where
  id : Nat
  hotel_pms_platform_id : Nat
  status : String
  records_created : Nat
  error_message : Option String
deriving DecidableEq, Repr

/-- From `create_scraping_run`: insert a new run with status `running`; the
fresh id models MySQL auto increment (`cursor.lastrowid`). -/
def create_scraping_run (t : List ScrapingRunRow) (platform_id : Nat) :
    List ScrapingRunRow × Nat :=
  let run_id := (t.foldl (fun m r => max m r.id) 0) + 1
  (t ++ [{ id := run_id
           hotel_pms_platform_id := platform_id
           status := "running"
           records_created := 0
           error_message := none }], run_id)

/-- From `update_scraping_run` (`src/db_operations.py` lines 210–235 and the
Wyndham twin): an unconditional `UPDATE ... WHERE id = run_id` overwriting
status, counts and error message — there is no guard on the row's current
status. -/
def update_scraping_run (t : List ScrapingRunRow) (run_id : Nat) (status : String)
    (records_created : Nat) (error_message : Option String) : List ScrapingRunRow :=
  match t with
  | [] => []
  | r :: rs =>
      (if r.id == run_id then
        { r with status := status, records_created := records_created,
                 error_message := error_message }
      else r) :: update_scraping_run rs run_id status records_created error_message

/-- Status of a run id in the table. -/
def runStatus (t : List ScrapingRunRow) (run_id : Nat) : Option String :=
  (t.find? (fun r => r.id == run_id)).map (·.status)

/-- Outcome of the scrape-and-save attempt for one property in the per-property
loop of `src/choice/choice_pricing_local.py` (lines 719–769) and
`src/wyndham/wyndham_pricing_local.py` (lines 734–796): the body either raises,
scrapes no data, or saves `savedCount` of the scraped records. -/
inductive ScrapeOutcome where
  | raised (error_msg : String)
  | noData
  | savedWith (savedCount : Nat)
deriving DecidableEq, Repr

/-- The `update_scraping_run` calls the per-property loop body issues for one
created run, read off the control flow of `choice_pricing_local.py`
lines 734–769 (identical in `wyndham_pricing_local.py`): exactly one
finalization per run, `completed` only when records were saved, `failed`
otherwise. -/
def finalizeCallsFor (run_id : Nat) (outcome : ScrapeOutcome) :
    List (Nat × String × Nat × Option String) :=
  match outcome with
  | .raised e => [(run_id, "failed", 0, some e)]
  | .noData => [(run_id, "failed", 0, some "No data scraped")]
  | .savedWith savedCount =>
      if 0 < savedCount then [(run_id, "completed", savedCount, none)]
      else [(run_id, "failed", 0, some "No records saved")]

/-! ## Network-response capture -/

/-- A JSON value, as produced by `json.loads`. -/
inductive Json where
  | null : Json
  | bool (b : Bool) : Json
  | num (q : ℚ) : Json
  | str (s : String) : Json
  | arr (xs : List Json) : Json
  | obj (members : List (String × Json)) : Json

/-- Boolean substring test on character lists. -/
def charsContain (s pat : List Char) : Bool :=
  match s with
  | [] => pat.isEmpty
  | _ :: tl => pat.isPrefixOf s || charsContain tl pat

/-- Python `pat in url` on strings: substring containment. -/
def strContains (s pat : String) : Bool :=
  charsContain s.toList pat.toList

/-- Python `'dates' in json_data[0]` for an arbitrary JSON value: key lookup
on a dict, element membership on a list, substring on a string; any other
operand raises `TypeError`, which the surrounding `except` swallows, so the
entry simply does not match. -/
def pyHasDates : Json → Bool
  | .obj members => members.any (fun kv => kv.1 == "dates")
  | .arr xs => xs.any (fun x => match x with | .str s => s == "dates" | _ => false)
  | .str s => strContains s "dates"
  | _ => false

/-- The structural validation of `src/wyndham/wyndham_v4_api.py`
(`capture_api_response` lines 361–364): the payload is a non-empty list whose
first element has a `dates` member. -/
def wyndhamValidShape : Json → Bool
  | .arr (x :: _) => pyHasDates x
  | _ => false

/-- The Wyndham URL predicate (`wyndham_v4_api.py` lines 340–346). -/
def wyndhamUrlMatch (url : String) : Bool :=
  ["/calendar/data", "/pricing/data", "/properties/", "start_date", "end_date"].any
    (fun pattern => strContains url pattern)

/-- The Choice URL predicate (`choice_v4_api.py` line 396). -/
def choiceUrlMatch (url : String) : Bool :=
  strContains url "v2?start_date" || (strContains url "v2" && strContains url "start_date")

/-- One structured entry of the Chrome performance log (the
`json.loads(entry[...])` framing is library-side). -/
structure PerfEntry where
  method : String
  url : String
  requestId : Nat
deriving DecidableEq, Repr

/-- One pass over a freshly polled batch of log entries.  For each completed
response whose URL matches, the body is fetched and parsed (`getBody`, `none`
models a fetch or parse failure, after which scanning continues); `onBody`
decides whether a parsed body is returned (`none` keeps scanning). -/
def scanLog (matchUrl : String → Bool) (getBody : Nat → Option Json)
    (onBody : Json → Option Json) : List PerfEntry → Option Json
  | [] => none
  | e :: rest =>
      if e.method == "Network.responseReceived" && matchUrl e.url then
        match getBody e.requestId with
        | some j =>
            match onBody j with
            | some out => some out
            | none => scanLog matchUrl getBody onBody rest
        | none => scanLog matchUrl getBody onBody rest
      else scanLog matchUrl getBody onBody rest

/-- Both capture loops wait at most 60 seconds, polling once per second. -/
def max_wait : Nat := 60

/-- The polling loop shared by both `capture_api_response` functions: scan the
batch polled at each one-second tick, return the first hit, `none` once
`max_wait` elapses. -/
def captureLoop (matchUrl : String → Bool) (getBody : Nat → Option Json)
    (onBody : Json → Option Json) (getLog : Nat → List PerfEntry) :
    Nat → Nat → Option Json
  | 0, _ => none
  | fuel + 1, tick =>
      match scanLog matchUrl getBody onBody (getLog tick) with
      | some j => some j
      | none => captureLoop matchUrl getBody onBody getLog fuel (tick + 1)

namespace WyndhamV4Api

/-- From `src/wyndham/wyndham_v4_api.py` (`capture_api_response`): poll the
performance log once per second for up to 60 seconds; return the first
matching completed response whose body fetches, parses, and passes the
structural validation; skip bodies that fail to fetch/parse or fail the shape
check; `none` on timeout. -/
def capture_api_response (getLog : Nat → List PerfEntry)
    (getBody : Nat → Option Json) : Option Json :=
  captureLoop wyndhamUrlMatch getBody
    (fun j => if wyndhamValidShape j then some j else none) getLog max_wait 0

end WyndhamV4Api

namespace ChoiceV4Api

/-- From `src/choice/choice_v4_api.py` (`capture_api_response`): same polling
loop and timeout, but any body that fetches and parses is returned
immediately — there is no structural validation of the parsed payload. -/
def capture_api_response (getLog : Nat → List PerfEntry)
    (getBody : Nat → Option Json) : Option Json :=
  captureLoop choiceUrlMatch getBody (fun j => some j) getLog max_wait 0

end ChoiceV4Api

/-! ## Historical matcher -/

/-- A row of the read-only `wyndham_old_records` store. -/
structure OldRecordRow where
  property_id : Nat
  date : Int
  occupancy : Option ℚ
  adr : Option ℚ
  revenue : Option ℚ
  dow : Int
deriving DecidableEq, Repr

/-- The exact-date query of `get_historical_data`
(`SELECT ... WHERE property_id = %s AND date = %s LIMIT 1`). -/
def lookupOldRecord (store : List OldRecordRow) (property_id : Nat) (d : Int) :
    Option OldRecordRow :=
  store.find? (fun r => r.property_id == property_id && r.date == d)

/-- The expanding search order of `get_historical_data`
(`src/wyndham/wyndham_db_operations.py` line 454). -/
def search_offsets : List Int := [0, -1, 1, -2, 2, -3, 3]

/-- Probe the candidate dates in order, returning the first hit. -/
def probeOffsets (store : List OldRecordRow) (property_id : Nat)
    (last_year_date : Int) : List Int → Option OldRecordRow
  | [] => none
  | offset :: rest =>
      match lookupOldRecord store property_id (last_year_date + offset) with
      | some r => some r
      | none => probeOffsets store property_id last_year_date rest

/-- From `src/wyndham/wyndham_db_operations.py` (`get_historical_data`): anchor
at `target_date - 365` days and probe offsets 0, −1, +1, −2, +2, −3, +3 in that
order, returning the first exact-date match for the property, or `none` when
the whole window is empty. -/
def get_historical_data (store : List OldRecordRow) (property_id : Nat)
    (target_date : Int) : Option OldRecordRow :=
  let last_year_date := target_date - 365
  probeOffsets store property_id last_year_date search_offsets

/-! ## Raw payload entries and the Wyndham processing loop -/

/-- One element of a property object's `dates` array, typed by the captured
payload schema.  Monetary members are `{value: number}` wrappers that may be
absent, null, or present (`JField`); members read with plain `dict.get`
(where absent and null both yield Python `None`) are `Option`s.  The date
member is the mandatory field: `date_obj["date"]` raises `KeyError` when it
is missing.  A present date is already parsed to a day index. -/
structure RawDateEntry where
  date : Option Int
  price : JField ℚ
  previousRate : JField ℚ
  priceDiff : JField ℚ
  compSetAvg : JField ℚ
  onBookPercent : Option Int
  forecastPercent : Option Int
  priceOverridden : Option Bool
  lyBookingPercent : Option Int
  lyRevenue : JField ℚ
  lyAdr : Option ℚ
  previousLrv : JField ℚ
  arrivals : Option Int
  departures : Option Int
  physicalCapacity : Option Int
  outOfOrder : Option Int
  onBook : Option Int
deriving DecidableEq, Repr

/-- A property object of the captured payload. -/
structure PropertyObj where
  id : Option String
  dates : List RawDateEntry
deriving DecidableEq, Repr

/-- The per-entry mapping step of `process_and_save_to_database`
(`src/wyndham/wyndham_v4_api.py` lines 439–475): read `date_obj["date"]`
(raising on a missing date), gate every optional member as in the source, and
call the Wyndham mapper.  Over schema-typed entries the missing date is the
only raising read. -/
def rawRecord (property_uuid : String) (e : RawDateEntry) (d : Int) :
    WyndhamUpdateRecord :=
  map_wyndham_json_to_update_record property_uuid d
    e.price.toOption
    e.previousRate.toOption
    e.priceDiff.toOption
    e.compSetAvg.toOption
    e.onBookPercent
    e.forecastPercent
    (e.priceOverridden.getD false)
    e.lyBookingPercent
    e.lyRevenue.toOption
    e.arrivals
    e.departures
    e.physicalCapacity
    e.outOfOrder
    e.onBook

/-- The raising read of the mandatory date, then the mapper call. -/
def mapWyndhamRawEntry (property_uuid : String) (e : RawDateEntry) :
    Except String WyndhamUpdateRecord :=
  match e.date with
  | none => .error "KeyError: date"
  | some d => .ok (rawRecord property_uuid e d)

namespace WyndhamV4Api

/-- The inner per-dates loop of `process_and_save_to_database`
(`src/wyndham/wyndham_v4_api.py` lines 436–488): each entry is mapped and
saved inside its own `try`, so a mapping failure or a failed save increments
`fail_count` and the loop continues with the next entry. -/
def processDates (properties : List (String × Nat)) (property_uuid : String) :
    List RawDateEntry → (List UpdateRecordsRow × Nat × Nat) →
    List UpdateRecordsRow × Nat × Nat
  | [], acc => acc
  | date_obj :: rest, acc =>
      processDates properties property_uuid rest
        (match mapWyndhamRawEntry property_uuid date_obj with
         | .error _ => (acc.1, acc.2.1, acc.2.2 + 1)
         | .ok record =>
             match WyndhamDBOperations.save_pricing_data properties acc.1 record none with
             | (t, true) => (t, acc.2.1 + 1, acc.2.2)
             | (t, false) => (t, acc.2.1, acc.2.2 + 1))

/-- From `src/wyndham/wyndham_v4_api.py` (`process_and_save_to_database`):
iterate over the payload's property objects, skipping those without a truthy
`id`, and process each object's dates, returning the stored table together
with `(success_count, fail_count)`. -/
def processProperties (properties : List (String × Nat)) :
    List PropertyObj → (List UpdateRecordsRow × Nat × Nat) →
    List UpdateRecordsRow × Nat × Nat
  | [], acc => acc
  | property_obj :: rest, acc =>
      processProperties properties rest
        (match property_obj.id with
         | none => acc
         | some property_uuid =>
             if property_uuid == "" then acc
             else processDates properties property_uuid property_obj.dates acc)

/-- The whole processing pass starts from the current table and zeroed
counters. -/
def process_and_save_to_database (properties : List (String × Nat))
    (json_data : List PropertyObj) (t : List UpdateRecordsRow) :
    List UpdateRecordsRow × Nat × Nat :=
  processProperties properties json_data (t, 0, 0)

end WyndhamV4Api

/-! ## The Choice JSON loader -/

namespace ChoiceLoader

/-- The `previousRate_value` computation of
`src/choice/json_to_update_record_mapper.py` lines 31–32:
`Decimal(str(date_obj["previousRate"]["value"])) if
date_obj.get("previousLrv") is not None else None`.  The gate tests the
*different* member `previousLrv`; when it passes, `date_obj["previousRate"]`
raises `KeyError` if `previousRate` is absent and subscripting null raises
`TypeError` if it is JSON null. -/
def previousRateValue (e : RawDateEntry) : Except String (Option ℚ) :=
  match e.previousLrv with
  | .val _ =>
      match e.previousRate with
      | .val v => .ok (some v)
      | .absent => .error "KeyError: previousRate"
      | .null => .error "TypeError: NoneType is not subscriptable"
  | _ => .ok none

/-- The per-entry mapping of `load_update_records_from_json`
(`src/choice/json_to_update_record_mapper.py`): read the mandatory date,
compute the previous price through the `previousLrv` gate, and call the
generic mapper with the directly supplied `lyAdr`.  The loader has no
per-entry exception handling, so an error aborts the whole load. -/
def mapChoiceEntry (property_uuid : String) (e : RawDateEntry) :
    Except String UpdateRecord :=
  match e.date with
  | none => .error "KeyError: date"
  | some d =>
      match previousRateValue e with
      | .error msg => .error msg
      | .ok previousRate_value =>
          .ok (map_json_to_update_record property_uuid d
            e.price.toOption
            previousRate_value
            e.priceDiff.toOption
            e.compSetAvg.toOption
            e.onBookPercent
            e.forecastPercent
            false
            e.lyBookingPercent
            e.lyAdr
            e.arrivals
            e.departures
            e.physicalCapacity
            e.outOfOrder
            e.onBook)

/-- From `src/choice/json_to_update_record_mapper.py`
(`load_update_records_from_json`), for one property object: map the entries
in order with no per-entry recovery — the first raising entry aborts the
load with its exception. -/
def load_update_records_from_json (property_uuid : String)
    (dates : List RawDateEntry) : Except String (List UpdateRecord) :=
  match dates with
  | [] => .ok []
  | e :: rest =>
      match mapChoiceEntry property_uuid e with
      | .error msg => .error msg
      | .ok r =>
          match load_update_records_from_json property_uuid rest with
          | .error msg => .error msg
          | .ok rs => .ok (r :: rs)

end ChoiceLoader

/-! ## Theorems -/

/-- Claim C9: `percent_to_decimal` maps `None` to `None` and every integer n
to the exact fraction n / 100; in particular 20 maps to 0.20. -/
theorem claim_C9 :
    percent_to_decimal none = none
    ∧ (∀ n : Int, percent_to_decimal (some n) = some ((n : ℚ) / 100))
    ∧ percent_to_decimal (some 20) = some (1 / 5) := by
  refine ⟨rfl, fun n => rfl, ?_⟩
  norm_num [percent_to_decimal]

/-- Claim C8: in both record mappers, `avl_rooms` equals
`physicalCapacity − outOfOrder − onBook` when all three inputs are present and
is null whenever any of the three is absent; the instance (100, 5, 80) yields
15. -/
theorem claim_C8 :
    (∀ u d pv prv pdv cs obp fp ub lybp lyrev arr dep pc oo ob,
      (map_wyndham_json_to_update_record u d pv prv pdv cs obp fp ub lybp lyrev
        arr dep (some pc) (some oo) (some ob)).avl_rooms = some (pc - oo - ob))
    ∧ (∀ u d pv prv pdv cs obp fp ub lybp lyrev arr dep oo ob,
      (map_wyndham_json_to_update_record u d pv prv pdv cs obp fp ub lybp lyrev
        arr dep none oo ob).avl_rooms = none)
    ∧ (∀ u d pv prv pdv cs obp fp ub lybp lyrev arr dep pc ob,
      (map_wyndham_json_to_update_record u d pv prv pdv cs obp fp ub lybp lyrev
        arr dep pc none ob).avl_rooms = none)
    ∧ (∀ u d pv prv pdv cs obp fp ub lybp lyrev arr dep pc oo,
      (map_wyndham_json_to_update_record u d pv prv pdv cs obp fp ub lybp lyrev
        arr dep pc oo none).avl_rooms = none)
    ∧ (∀ u d pv prv pdv cs obp fp ub lybp lyadr arr dep pc oo ob,
      (map_json_to_update_record u d pv prv pdv cs obp fp ub lybp lyadr
        arr dep (some pc) (some oo) (some ob)).avl_rooms = some (pc - oo - ob))
    ∧ (∀ u d pv prv pdv cs obp fp ub lybp lyadr arr dep pc oo ob,
      pc = none ∨ oo = none ∨ ob = none →
      (map_json_to_update_record u d pv prv pdv cs obp fp ub lybp lyadr
        arr dep pc oo ob).avl_rooms = none)
    ∧ (map_wyndham_json_to_update_record "u" 0 none none none none none none
        false none none none none (some 100) (some 5) (some 80)).avl_rooms
        = some 15 := by
  refine ⟨fun _ _ _ _ _ _ _ _ _ _ _ _ _ _ _ _ => rfl,
          fun _ _ _ _ _ _ _ _ _ _ _ _ _ oo ob => by
            cases oo <;> cases ob <;> rfl,
          fun _ _ _ _ _ _ _ _ _ _ _ _ _ pc ob => by
            cases pc <;> cases ob <;> rfl,
          fun _ _ _ _ _ _ _ _ _ _ _ _ _ pc oo => by
            cases pc <;> cases oo <;> rfl,
          fun _ _ _ _ _ _ _ _ _ _ _ _ _ _ _ _ => rfl,
          ?_, rfl⟩
  rintro u d pv prv pdv cs obp fp ub lybp lyadr arr dep pc oo ob (rfl | rfl | rfl)
  · rfl
  · cases pc <;> cases ob <;> rfl
  · cases pc <;> cases oo <;> rfl

/-- Witness for claim C8: the disjunctive-hypothesis conjunct applied at a
concrete input. -/
theorem claim_C8_witness :
    (map_json_to_update_record "u" 0 none none none none none none false none
      none none none none (some 5) (some 80)).avl_rooms = none :=
  claim_C8.2.2.2.2.2.1 "u" 0 none none none none none none false none
    none none none none (some 5) (some 80) (Or.inl rfl)

/-- Claim C7: the Wyndham mapper derives last-year ADR as
`lyRevenue / ((lyBookingPercent / 100) × physicalCapacity)` and has no direct
last-year ADR input; the derivation is guarded: if any of the three operands
is absent, or the computed occupied-room count is not positive, `ly_adr` is
null, and the division only happens under the positivity guard.  The generic
mapper, which does receive a direct `lyAdr`, passes it through and never
derives. -/
theorem claim_C7 :
    (∀ u d pv prv pdv cs obp fp ub arr dep pc oo ob lybp,
      (map_wyndham_json_to_update_record u d pv prv pdv cs obp fp ub lybp none
        arr dep pc oo ob).ly_adr = none)
    ∧ (∀ u d pv prv pdv cs obp fp ub arr dep pc oo ob lyrev,
      (map_wyndham_json_to_update_record u d pv prv pdv cs obp fp ub none lyrev
        arr dep pc oo ob).ly_adr = none)
    ∧ (∀ u d pv prv pdv cs obp fp ub arr dep oo ob lybp lyrev,
      (map_wyndham_json_to_update_record u d pv prv pdv cs obp fp ub lybp lyrev
        arr dep none oo ob).ly_adr = none)
    ∧ (∀ u d pv prv pdv cs obp fp ub arr dep oo ob (pct cap : Int) (rev : ℚ),
      (map_wyndham_json_to_update_record u d pv prv pdv cs obp fp ub (some pct)
        (some rev) arr dep (some cap) oo ob).ly_adr
        = if 0 < (pct : ℚ) / 100 * (cap : ℚ)
          then some (rev / ((pct : ℚ) / 100 * (cap : ℚ))) else none)
    ∧ (∀ u d pv prv pdv cs obp fp ub arr dep oo ob (pct cap : Int) (rev : ℚ),
      ¬ 0 < (pct : ℚ) / 100 * (cap : ℚ) →
      (map_wyndham_json_to_update_record u d pv prv pdv cs obp fp ub (some pct)
        (some rev) arr dep (some cap) oo ob).ly_adr = none)
    ∧ (∀ u d pv prv pdv cs obp fp ub lybp lyadr arr dep pc oo ob,
      (map_json_to_update_record u d pv prv pdv cs obp fp ub lybp lyadr
        arr dep pc oo ob).ly_adr = lyadr) := by
  refine ⟨fun u d pv prv pdv cs obp fp ub arr dep pc oo ob lybp => by
            cases lybp <;> cases pc <;> rfl,
          fun _ _ _ _ _ _ _ _ _ _ _ pc _ _ lyrev => by cases lyrev <;> cases pc <;> rfl,
          fun _ _ _ _ _ _ _ _ _ _ _ _ _ lybp lyrev => by cases lybp <;> cases lyrev <;> rfl,
          fun _ _ _ _ _ _ _ _ _ _ _ _ _ _ _ _ => rfl,
          fun u d pv prv pdv cs obp fp ub arr dep oo ob pct cap rev h => by
            have e : (map_wyndham_json_to_update_record u d pv prv pdv cs obp fp
                ub (some pct) (some rev) arr dep (some cap) oo ob).ly_adr
                = if 0 < (pct : ℚ) / 100 * (cap : ℚ)
                  then some (rev / ((pct : ℚ) / 100 * (cap : ℚ))) else none := rfl
            rw [e, if_neg h],
          fun _ _ _ _ _ _ _ _ _ _ _ _ _ _ _ _ => rfl⟩

/-- Witness for claim C7: a zero booking percentage makes the occupied-room
count zero, so the guarded derivation yields null. -/
theorem claim_C7_witness :
    (map_wyndham_json_to_update_record "u" 0 none none none none none none
      false (some 0) (some 100) none none (some 10) none none).ly_adr = none :=
  claim_C7.2.2.2.2.1 "u" 0 none none none none none none false none none
    none none 0 10 100 (by simp)

/-- Probing a list of offsets returns the first offset whose candidate date
has a snapshot. -/
theorem probeOffsets_eq_findSome (store : List OldRecordRow) (property_id : Nat)
    (a : Int) (l : List Int) :
    probeOffsets store property_id a l
      = l.findSome? (fun o => lookupOldRecord store property_id (a + o)) := by
  induction l with
  | nil => rfl
  | cons o rest ih =>
      simp only [probeOffsets, List.findSome?]
      cases lookupOldRecord store property_id (a + o) with
      | none => simpa using ih
      | some r => rfl

/-- Claim C4: the historical lookup anchors at `target_date − 365` days,
probes the historical store at offsets 0, −1, +1, −2, +2, −3, +3 from the
anchor in that exact order and returns the first exact-date match; with
snapshots only at anchor−1 and anchor+2 it returns the anchor−1 snapshot, and
with no snapshot within the ±3-day window it returns none. -/
theorem claim_C4 :
    (∀ store property_id target_date,
      get_historical_data store property_id target_date
        = search_offsets.findSome?
            (fun o => lookupOldRecord store property_id (target_date - 365 + o)))
    ∧ (∀ store property_id target_date r s,
      lookupOldRecord store property_id (target_date - 365 + 0) = none →
      lookupOldRecord store property_id (target_date - 365 + -1) = some r →
      lookupOldRecord store property_id (target_date - 365 + 2) = some s →
      get_historical_data store property_id target_date = some r)
    ∧ (∀ store property_id target_date,
      (∀ o : Int, -3 ≤ o → o ≤ 3 →
        lookupOldRecord store property_id (target_date - 365 + o) = none) →
      get_historical_data store property_id target_date = none) := by
  refine ⟨fun store property_id target_date =>
            probeOffsets_eq_findSome store property_id (target_date - 365) search_offsets,
          ?_, ?_⟩
  · intro store property_id target_date r s h0 hm1 _
    simp only [get_historical_data, search_offsets, probeOffsets, h0, hm1]
  · intro store property_id target_date h
    have h0 := h 0 (by decide) (by decide)
    have hm1 := h (-1) (by decide) (by decide)
    have h1 := h 1 (by decide) (by decide)
    have hm2 := h (-2) (by decide) (by decide)
    have h2 := h 2 (by decide) (by decide)
    have hm3 := h (-3) (by decide) (by decide)
    have h3 := h 3 (by decide) (by decide)
    simp only [get_historical_data, search_offsets, probeOffsets,
      h0, hm1, h1, hm2, h2, hm3, h3]

/-- Concrete historical store for the claim C4 witness: property 1 has
snapshots only one day before and two days after the anchor of target date
375 (anchor 10): at dates 9 and 12. -/
def c4Store : List OldRecordRow :=
  [{ property_id := 1, date := 9, occupancy := none, adr := none,
     revenue := none, dow := 2 },
   { property_id := 1, date := 12, occupancy := none, adr := none,
     revenue := none, dow := 5 }]

/-- Witness for claim C4: with snapshots present only at anchor−1 and
anchor+2, the matcher returns the anchor−1 snapshot. -/
theorem claim_C4_witness :
    get_historical_data c4Store 1 375 = some
      { property_id := 1, date := 9, occupancy := none, adr := none,
        revenue := none, dow := 2 } :=
  claim_C4.2.1 c4Store 1 375
    { property_id := 1, date := 9, occupancy := none, adr := none,
      revenue := none, dow := 2 }
    { property_id := 1, date := 12, occupancy := none, adr := none,
      revenue := none, dow := 5 }
    (by decide) (by decide) (by decide)

/-- The polling loop returns the first tick (scanning ticks in increasing
order, at most `fuel` of them) whose freshly polled batch yields a hit, and
`none` once the fuel is exhausted. -/
theorem captureLoop_eq_findSome (matchUrl : String → Bool)
    (getBody : Nat → Option Json) (onBody : Json → Option Json)
    (getLog : Nat → List PerfEntry) :
    ∀ (fuel tick : Nat),
      captureLoop matchUrl getBody onBody getLog fuel tick
        = (List.range' tick fuel).findSome?
            (fun t => scanLog matchUrl getBody onBody (getLog t)) := by
  intro fuel
  induction fuel with
  | zero => intro tick; rfl
  | succ n ih =>
      intro tick
      simp only [captureLoop, List.range', List.findSome?]
      cases scanLog matchUrl getBody onBody (getLog tick) with
      | none => simpa using ih (tick + 1)
      | some j => rfl

/-- Performance log used by the claim C2 counterexample: at the first poll a
single completed response on the Choice pricing endpoint, whose body parses to
the empty JSON object — a payload that fails the expected-shape validation. -/
def c2GetLog : Nat → List PerfEntry := fun tick =>
  if tick == 0 then
    [{ method := "Network.responseReceived",
       url := "https://choicemax.ideasrms.com/api/v2?start_date=2026-01-01",
       requestId := 1 }]
  else []

/-- Body store for the claim C2 counterexample: every request body parses to
the empty JSON object. -/
def c2GetBody : Nat → Option Json := fun _ => some (Json.obj [])

/-- Counterexample to claim C2: the Choice `capture_api_response` returns the
first URL-matching body that merely parses — here the empty JSON object, which
is not a non-empty array of property objects with a `dates` array — instead of
continuing to poll and timing out with `None` as the claim requires. -/
theorem claim_C2_counterexample :
    ChoiceV4Api.capture_api_response c2GetLog c2GetBody = some (Json.obj [])
    ∧ wyndhamValidShape (Json.obj []) = false := by
  exact ⟨rfl, rfl⟩

/-- Claim C2 as amended: the Wyndham capture returns the first completed
response whose URL matches and whose fetched body parses and passes the
structural validation, skipping fetch/parse failures and structurally invalid
bodies; the Choice capture returns the first URL-matching body that fetches
and parses, with no shape validation; both poll once per second for
`max_wait` = 60 seconds and return `none` when no poll produced a hit. -/
theorem claim_C2_amended :
    (∀ getLog getBody,
      WyndhamV4Api.capture_api_response getLog getBody
        = (List.range' 0 max_wait).findSome? (fun tick =>
            scanLog wyndhamUrlMatch getBody
              (fun j => if wyndhamValidShape j then some j else none) (getLog tick)))
    ∧ (∀ getLog getBody,
      ChoiceV4Api.capture_api_response getLog getBody
        = (List.range' 0 max_wait).findSome? (fun tick =>
            scanLog choiceUrlMatch getBody (fun j => some j) (getLog tick)))
    ∧ (∀ getLog getBody,
      (∀ tick, tick < max_wait →
        scanLog wyndhamUrlMatch getBody
          (fun j => if wyndhamValidShape j then some j else none) (getLog tick) = none) →
      WyndhamV4Api.capture_api_response getLog getBody = none)
    ∧ (∀ getBody (e : PerfEntry) rest j,
      e.method = "Network.responseReceived" → wyndhamUrlMatch e.url = true →
      getBody e.requestId = some j → wyndhamValidShape j = true →
      scanLog wyndhamUrlMatch getBody
        (fun j => if wyndhamValidShape j then some j else none) (e :: rest) = some j)
    ∧ (∀ getBody (e : PerfEntry) rest j,
      getBody e.requestId = some j → wyndhamValidShape j = false →
      scanLog wyndhamUrlMatch getBody
        (fun j => if wyndhamValidShape j then some j else none) (e :: rest)
        = scanLog wyndhamUrlMatch getBody
            (fun j => if wyndhamValidShape j then some j else none) rest)
    ∧ (∀ getBody (e : PerfEntry) rest,
      getBody e.requestId = none →
      scanLog wyndhamUrlMatch getBody
        (fun j => if wyndhamValidShape j then some j else none) (e :: rest)
        = scanLog wyndhamUrlMatch getBody
            (fun j => if wyndhamValidShape j then some j else none) rest)
    ∧ max_wait = 60 := by
  refine ⟨fun getLog getBody => captureLoop_eq_findSome _ _ _ _ max_wait 0,
          fun getLog getBody => captureLoop_eq_findSome _ _ _ _ max_wait 0,
          ?_, ?_, ?_, ?_, rfl⟩
  · intro getLog getBody h
    show captureLoop wyndhamUrlMatch getBody
      (fun j => if wyndhamValidShape j then some j else none) getLog max_wait 0 = none
    rw [captureLoop_eq_findSome]
    rw [List.findSome?_eq_none_iff]
    intro t ht
    exact h t (by simpa using List.mem_range'_1.mp ht)
  · intro getBody e rest j hm hu hb hv
    simp only [scanLog, hm, hu, hb, hv]
    simp
  · intro getBody e rest j hb hv
    simp only [scanLog, hb, hv]
    split <;> simp
  · intro getBody e rest hb
    simp only [scanLog, hb]
    split <;> simp

/-- Witness for the amended claim C2: with no traffic ever observed, the
Wyndham capture times out and returns `none`. -/
theorem claim_C2_amended_witness :
    WyndhamV4Api.capture_api_response (fun _ => []) (fun _ => none) = none :=
  claim_C2_amended.2.2.1 (fun _ => []) (fun _ => none) (fun _ _ => rfl)

/-- Claim C10: in the Choice loader, the mapped previous price is read from
`previousRate` only when the different member `previousLrv` is present and
non-null: with `previousLrv` absent or null the previous price is null even
when `previousRate` carries a value; with a non-null `previousLrv` the value
of `previousRate` is read, and if `previousRate` is absent or null the entry
raises instead of producing a record, aborting the load. -/
theorem claim_C10 :
    (∀ u d price priceDiff compSetAvg obp fp po lybp lyAdr arr dep pc oo ob
        (v : ℚ),
      (ChoiceLoader.mapChoiceEntry u
        { date := some d, price := price, previousRate := JField.val v,
          priceDiff := priceDiff, compSetAvg := compSetAvg,
          onBookPercent := obp, forecastPercent := fp, priceOverridden := po,
          lyBookingPercent := lybp, lyRevenue := JField.absent, lyAdr := lyAdr,
          previousLrv := JField.absent, arrivals := arr, departures := dep,
          physicalCapacity := pc, outOfOrder := oo, onBook := ob }).map
        (fun r => r.standard_previous_price) = .ok none)
    ∧ (∀ u d price priceDiff compSetAvg obp fp po lybp lyAdr arr dep pc oo ob
        (v : ℚ),
      (ChoiceLoader.mapChoiceEntry u
        { date := some d, price := price, previousRate := JField.val v,
          priceDiff := priceDiff, compSetAvg := compSetAvg,
          onBookPercent := obp, forecastPercent := fp, priceOverridden := po,
          lyBookingPercent := lybp, lyRevenue := JField.absent, lyAdr := lyAdr,
          previousLrv := JField.null, arrivals := arr, departures := dep,
          physicalCapacity := pc, outOfOrder := oo, onBook := ob }).map
        (fun r => r.standard_previous_price) = .ok none)
    ∧ (∀ u d price priceDiff compSetAvg obp fp po lybp lyAdr arr dep pc oo ob
        (v w : ℚ),
      (ChoiceLoader.mapChoiceEntry u
        { date := some d, price := price, previousRate := JField.val v,
          priceDiff := priceDiff, compSetAvg := compSetAvg,
          onBookPercent := obp, forecastPercent := fp, priceOverridden := po,
          lyBookingPercent := lybp, lyRevenue := JField.absent, lyAdr := lyAdr,
          previousLrv := JField.val w, arrivals := arr, departures := dep,
          physicalCapacity := pc, outOfOrder := oo, onBook := ob }).map
        (fun r => r.standard_previous_price) = .ok (some v))
    ∧ (∀ u d price priceDiff compSetAvg obp fp po lybp lyAdr arr dep pc oo ob
        (w : ℚ),
      ChoiceLoader.mapChoiceEntry u
        { date := some d, price := price, previousRate := JField.absent,
          priceDiff := priceDiff, compSetAvg := compSetAvg,
          onBookPercent := obp, forecastPercent := fp, priceOverridden := po,
          lyBookingPercent := lybp, lyRevenue := JField.absent, lyAdr := lyAdr,
          previousLrv := JField.val w, arrivals := arr, departures := dep,
          physicalCapacity := pc, outOfOrder := oo, onBook := ob }
        = .error "KeyError: previousRate")
    ∧ (∀ u d price priceDiff compSetAvg obp fp po lybp lyAdr arr dep pc oo ob
        (w : ℚ),
      ChoiceLoader.mapChoiceEntry u
        { date := some d, price := price, previousRate := JField.null,
          priceDiff := priceDiff, compSetAvg := compSetAvg,
          onBookPercent := obp, forecastPercent := fp, priceOverridden := po,
          lyBookingPercent := lybp, lyRevenue := JField.absent, lyAdr := lyAdr,
          previousLrv := JField.val w, arrivals := arr, departures := dep,
          physicalCapacity := pc, outOfOrder := oo, onBook := ob }
        = .error "TypeError: NoneType is not subscriptable")
    ∧ (∀ u rest (e : RawDateEntry) msg,
      ChoiceLoader.mapChoiceEntry u e = .error msg →
      ChoiceLoader.load_update_records_from_json u (e :: rest) = .error msg) := by
  refine ⟨fun _ _ _ _ _ _ _ _ _ _ _ _ _ _ _ _ => rfl,
          fun _ _ _ _ _ _ _ _ _ _ _ _ _ _ _ _ => rfl,
          fun _ _ _ _ _ _ _ _ _ _ _ _ _ _ _ _ _ => rfl,
          fun _ _ _ _ _ _ _ _ _ _ _ _ _ _ _ _ => rfl,
          fun _ _ _ _ _ _ _ _ _ _ _ _ _ _ _ _ => rfl,
          ?_⟩
  intro u rest e msg h
  simp only [ChoiceLoader.load_update_records_from_json, h]

/-- Witness for claim C10: a concrete entry with a non-null `previousLrv` and
an absent `previousRate` aborts the whole load with the mapping exception. -/
theorem claim_C10_witness :
    ChoiceLoader.load_update_records_from_json "u"
      [{ date := some 5, price := JField.absent, previousRate := JField.absent,
         priceDiff := JField.absent, compSetAvg := JField.absent,
         onBookPercent := none, forecastPercent := none, priceOverridden := none,
         lyBookingPercent := none, lyRevenue := JField.absent, lyAdr := none,
         previousLrv := JField.val 7, arrivals := none, departures := none,
         physicalCapacity := none, outOfOrder := none, onBook := none }]
      = .error "KeyError: previousRate" :=
  claim_C10.2.2.2.2.2 "u" []
    { date := some 5, price := JField.absent, previousRate := JField.absent,
      priceDiff := JField.absent, compSetAvg := JField.absent,
      onBookPercent := none, forecastPercent := none, priceOverridden := none,
      lyBookingPercent := none, lyRevenue := JField.absent, lyAdr := none,
      previousLrv := JField.val 7, arrivals := none, departures := none,
      physicalCapacity := none, outOfOrder := none, onBook := none }
    "KeyError: previousRate"
    (claim_C10.2.2.2.1 "u" 5 JField.absent JField.absent JField.absent
      none none none none none none none none none none 7)

/-- Replay a list of `update_scraping_run` calls against the runs table. -/
def applyRunUpdates (t : List ScrapingRunRow)
    (calls : List (Nat × String × Nat × Option String)) : List ScrapingRunRow :=
  calls.foldl (fun t c => update_scraping_run t c.1 c.2.1 c.2.2.1 c.2.2.2) t

/-- The running maximum of run ids only grows. -/
theorem foldl_max_init_le (t : List ScrapingRunRow) :
    ∀ m : Nat, m ≤ t.foldl (fun m r => max m r.id) m := by
  induction t with
  | nil => intro m; exact le_refl m
  | cons a rest ih => intro m; exact le_trans (le_max_left m a.id) (ih (max m a.id))

/-- Every id stored in the runs table is bounded by the folded maximum. -/
theorem runId_le_foldl_max (t : List ScrapingRunRow) :
    ∀ (m : Nat) (r : ScrapingRunRow), r ∈ t →
      r.id ≤ t.foldl (fun m r => max m r.id) m := by
  induction t with
  | nil => intro m r h; cases h
  | cons a rest ih =>
      intro m r h
      rcases List.mem_cons.mp h with h | h
      · subst h
        exact le_trans (le_max_right m r.id) (foldl_max_init_le rest (max m r.id))
      · exact ih (max m a.id) r h

/-- A freshly created run id is not yet present in the table. -/
theorem create_fresh (t : List ScrapingRunRow) (platform_id : Nat) :
    ∀ r ∈ t, r.id ≠ (create_scraping_run t platform_id).2 := by
  intro r hr he
  have hb := runId_le_foldl_max t 0 r hr
  rw [he] at hb
  simp only [create_scraping_run] at hb
  omega

/-- Updating a run present in the table sets exactly its status. -/
theorem runStatus_update (t : List ScrapingRunRow) (run_id : Nat) (status : String)
    (records : Nat) (err : Option String) (hne : runStatus t run_id ≠ none) :
    runStatus (update_scraping_run t run_id status records err) run_id = some status := by
  induction t with
  | nil => exact absurd rfl hne
  | cons a rest ih =>
      by_cases ha : (a.id == run_id) = true
      · simp only [update_scraping_run, if_pos ha, runStatus]
        rw [List.find?_cons_of_pos]
        · rfl
        · exact ha
      · have hne' : runStatus rest run_id ≠ none := by
          simp only [runStatus] at hne
          rw [@List.find?_cons_of_neg _ (fun r => r.id == run_id) a rest ha] at hne
          exact hne
        simp only [update_scraping_run, if_neg ha, runStatus]
        rw [@List.find?_cons_of_neg _ (fun r => r.id == run_id) a
          (update_scraping_run rest run_id status records err) ha]
        exact ih hne'

/-- Counterexample to claim C5: the run-tracker update operation overwrites
the status unconditionally, so a later call moves a run that was already
`completed` back to `running` — finality is not enforced by the operations. -/
theorem claim_C5_counterexample :
    runStatus (update_scraping_run
      (update_scraping_run (create_scraping_run [] 7).1 1 "completed" 5 none)
      1 "running" 0 none) 1 = some "running"
    ∧ runStatus (update_scraping_run (create_scraping_run [] 7).1 1 "completed" 5 none) 1
      = some "completed" := ⟨rfl, rfl⟩

/-- Claim C5 as amended: the per-property pipeline control flow finalizes each
created run exactly once, with status `completed` (exactly when records were
saved) or `failed`, and never issues an update with status `running`;
replaying the issued calls after run creation leaves the run in a terminal
status.  The `update_scraping_run` operation itself, however, overwrites
unconditionally and does not by itself prevent a later transition out of a
terminal status. -/
theorem claim_C5_amended :
    (∀ run_id outcome, (finalizeCallsFor run_id outcome).length = 1)
    ∧ (∀ run_id outcome c, c ∈ finalizeCallsFor run_id outcome →
        c.1 = run_id ∧ (c.2.1 = "completed" ∨ c.2.1 = "failed")
          ∧ c.2.1 ≠ "running")
    ∧ (∀ run_id savedCount, 0 < savedCount →
        finalizeCallsFor run_id (.savedWith savedCount)
          = [(run_id, "completed", savedCount, none)])
    ∧ (∀ t platform_id outcome,
        runStatus (applyRunUpdates (create_scraping_run t platform_id).1
            (finalizeCallsFor (create_scraping_run t platform_id).2 outcome))
          (create_scraping_run t platform_id).2 = some "completed"
        ∨ runStatus (applyRunUpdates (create_scraping_run t platform_id).1
            (finalizeCallsFor (create_scraping_run t platform_id).2 outcome))
          (create_scraping_run t platform_id).2 = some "failed") := by
  have hcreated : ∀ (t : List ScrapingRunRow) platform_id,
      runStatus (create_scraping_run t platform_id).1
        (create_scraping_run t platform_id).2 ≠ none := by
    intro t platform_id
    simp only [runStatus, create_scraping_run, ne_eq, Option.map_eq_none']
    rw [List.find?_append]
    simp
  refine ⟨?_, ?_, ?_, ?_⟩
  · intro run_id outcome
    cases outcome with
    | raised e => rfl
    | noData => rfl
    | savedWith n =>
        by_cases h : 0 < n
        · simp [finalizeCallsFor, h]
        · simp [finalizeCallsFor, h]
  · intro run_id outcome c hc
    cases outcome with
    | raised e =>
        simp only [finalizeCallsFor, List.mem_singleton] at hc
        subst hc
        exact ⟨rfl, Or.inr rfl, by simp⟩
    | noData =>
        simp only [finalizeCallsFor, List.mem_singleton] at hc
        subst hc
        exact ⟨rfl, Or.inr rfl, by simp⟩
    | savedWith n =>
        by_cases h : 0 < n
        · rw [finalizeCallsFor, if_pos h] at hc
          simp only [List.mem_singleton] at hc
          subst hc
          exact ⟨rfl, Or.inl rfl, by simp⟩
        · rw [finalizeCallsFor, if_neg h] at hc
          simp only [List.mem_singleton] at hc
          subst hc
          exact ⟨rfl, Or.inr rfl, by simp⟩
  · intro run_id savedCount h
    simp [finalizeCallsFor, h]
  · intro t platform_id outcome
    cases outcome with
    | raised e =>
        exact Or.inr (runStatus_update _ _ "failed" 0 _ (hcreated t platform_id))
    | noData =>
        exact Or.inr (runStatus_update _ _ "failed" 0 _ (hcreated t platform_id))
    | savedWith n =>
        by_cases h : 0 < n
        · refine Or.inl ?_
          simp only [applyRunUpdates, finalizeCallsFor, if_pos h, List.foldl]
          exact runStatus_update _ _ "completed" n none (hcreated t platform_id)
        · refine Or.inr ?_
          simp only [applyRunUpdates, finalizeCallsFor, if_neg h, List.foldl]
          exact runStatus_update _ _ "failed" 0 _ (hcreated t platform_id)

/-- Witness for the amended claim C5: a run that saved 5 records is finalized
by exactly the single call marking it `completed`. -/
theorem claim_C5_amended_witness :
    finalizeCallsFor 1 (.savedWith 5) = [(1, "completed", 5, none)] :=
  claim_C5_amended.2.2.1 1 5 (by decide)

/-! ## Shared facts about the keyed upsert -/

/-- Key predicate on a row against explicit key components. -/
def keyRowB (r : UpdateRecordsRow) (property_id : Nat) (record_date : Int) : Bool :=
  r.property_id == property_id && r.record_date == record_date

/-- Number of stored rows carrying a given natural key. -/
def keyCount (t : List UpdateRecordsRow) (property_id : Nat) (record_date : Int) : Nat :=
  (t.filter (fun r => keyRowB r property_id record_date)).length

/-- Unfolding of the boolean key comparison. -/
theorem sameKey_iff {a b : UpdateRecordsRow} :
    sameKey a b = true ↔ a.property_id = b.property_id ∧ a.record_date = b.record_date := by
  simp [sameKey]

/-- Every row of an upsert result is an untouched old row, the new row, or the
merge of the conflicting old row with the new row. -/
theorem mem_upsertWith {merge : UpdateRecordsRow → UpdateRecordsRow → UpdateRecordsRow}
    {t : List UpdateRecordsRow} {new r : UpdateRecordsRow}
    (h : r ∈ upsertWith merge t new) :
    r ∈ t ∨ r = new ∨ ∃ old, old ∈ t ∧ sameKey old new = true ∧ r = merge old new := by
  induction t with
  | nil =>
      simp only [upsertWith, List.mem_singleton] at h
      exact Or.inr (Or.inl h)
  | cons a rest ih =>
      simp only [upsertWith] at h
      by_cases ha : sameKey a new = true
      · rw [if_pos ha] at h
        rcases List.mem_cons.mp h with h | h
        · exact Or.inr (Or.inr ⟨a, List.mem_cons_self a rest, ha, h⟩)
        · exact Or.inl (List.mem_cons_of_mem a h)
      · rw [if_neg ha] at h
        rcases List.mem_cons.mp h with h | h
        · exact Or.inl (h ▸ List.mem_cons_self a rest)
        · rcases ih h with h | h | ⟨old, ho, hk, he⟩
          · exact Or.inl (List.mem_cons_of_mem a h)
          · exact Or.inr (Or.inl h)
          · exact Or.inr (Or.inr ⟨old, List.mem_cons_of_mem a ho, hk, he⟩)

/-! ## Claim C1 -/

/-- The property claim C1 asserts of every persisted row: the stored delta is
the stored current price minus the most recently stored non-null price of the
same property strictly before the row's date (with respect to the previously
committed table), null when either side is unknown. -/
def priceChangeConsistent (t0 : List UpdateRecordsRow) (r : UpdateRecordsRow) : Prop :=
  r.standard_price_change
    = legacyPriceChange r.standard_price
        (get_previous_standard_price t0 r.property_id r.record_date)

instance (t0 : List UpdateRecordsRow) (r : UpdateRecordsRow) :
    Decidable (priceChangeConsistent t0 r) :=
  inferInstanceAs (Decidable (_ = _))

/-- The row the legacy save builds is consistent by construction. -/
theorem legacyRowFor_consistent (t0 : List UpdateRecordsRow) (run_id : Option Nat)
    (property_id : Nat) (record_date : Int) (e : LegacyScrapedEntry) :
    priceChangeConsistent t0 (legacyRowFor t0 run_id property_id record_date e) := rfl

/-- Merging a consistent incoming row into a conflicting stored row keeps
consistency: the merge takes the new price and delta, and the key fields of
the two rows coincide. -/
theorem mergeLegacy_consistent {t0 : List UpdateRecordsRow}
    {old new : UpdateRecordsRow} (hk : sameKey old new = true)
    (hnew : priceChangeConsistent t0 new) :
    priceChangeConsistent t0 (mergeLegacy old new) := by
  rcases sameKey_iff.mp hk with ⟨hp, hd⟩
  show new.standard_price_change
    = legacyPriceChange new.standard_price
        (get_previous_standard_price t0 old.property_id old.record_date)
  rw [hp, hd]
  exact hnew

/-- Any row present after a legacy batch save is either a previously committed
row or satisfies the recomputed-delta property with respect to the previously
committed table. -/
theorem legacy_save_rows (t0 : List UpdateRecordsRow) (run_id : Option Nat)
    (property_id : Nat) (es : List LegacyScrapedEntry) :
    ∀ r ∈ (DbOperations.save_pricing_data t0 run_id property_id es).1,
      r ∈ t0 ∨ priceChangeConsistent t0 r := by
  have step : ∀ (es : List LegacyScrapedEntry) (acc : List UpdateRecordsRow × Nat),
      (∀ r ∈ acc.1, r ∈ t0 ∨ priceChangeConsistent t0 r) →
      ∀ r ∈ (es.foldl (fun acc e =>
          match e.dateOnly with
          | none => acc
          | some record_date =>
              (upsertWith mergeLegacy acc.1
                (legacyRowFor t0 run_id property_id record_date e),
               acc.2 + 1)) acc).1,
        r ∈ t0 ∨ priceChangeConsistent t0 r := by
    intro es
    induction es with
    | nil => intro acc hacc r hr; exact hacc r hr
    | cons e rest ih =>
        intro acc hacc r hr
        rw [List.foldl_cons] at hr
        refine ih _ ?_ r hr
        cases he : e.dateOnly with
        | none => simpa [he] using hacc
        | some d =>
            simp only [he]
            intro r hr
            rcases mem_upsertWith hr with hr | hr | ⟨old, _, hk, he2⟩
            · exact hacc r hr
            · exact Or.inr (hr ▸ legacyRowFor_consistent t0 run_id property_id d e)
            · exact Or.inr (he2 ▸
                mergeLegacy_consistent hk (legacyRowFor_consistent t0 run_id property_id d e))
  intro r hr
  exact step es (t0, 0) (fun r hr => Or.inl hr) r hr

/-- The mapped record used by the claim C1 counterexample: the raw payload
entry carries `price = 106` and a `priceDiff` delta of `5`. -/
def c1Record : WyndhamUpdateRecord :=
  map_wyndham_json_to_update_record "prop-uuid" 100 (some 106) none (some 5)
    none none none false none none none none none none none

/-- Counterexample to claim C1: the Wyndham save path persists the mapped
record's `standard_price_change` — the payload's `priceDiff` — verbatim.  On
an empty table the previous stored price is null, so the claim requires a null
stored delta, yet the persisted row stores 5. -/
theorem claim_C1_counterexample :
    (WyndhamDBOperations.save_pricing_data [("prop-uuid", 1)] [] c1Record (some 9)).2 = true
    ∧ ((WyndhamDBOperations.save_pricing_data [("prop-uuid", 1)] [] c1Record (some 9)).1.map
        (fun r => r.standard_price_change)) = [some 5]
    ∧ (∃ r ∈ (WyndhamDBOperations.save_pricing_data [("prop-uuid", 1)] [] c1Record (some 9)).1,
        ¬ priceChangeConsistent [] r)
    ∧ legacyPriceChange c1Record.standard_price (get_previous_standard_price [] 1 100) = none := by
  refine ⟨rfl, rfl, ⟨wyndhamRowFor 1 (some 9) c1Record, ?_, ?_⟩, rfl⟩
  · exact List.mem_singleton.mpr rfl
  · intro h
    exact Option.noConfusion h

/-- Claim C1 as amended: the legacy save path (`src/db_operations.py`) does
recompute the stored delta — every row it persists either was already stored
or has `standard_price_change = standard_price − previous stored price` (null
when either is unknown), with the previous price fetched from the committed
table, ignoring any delta in the scraped data; the Wyndham save path
(`src/wyndham/wyndham_db_operations.py`) instead persists the mapped record's
`standard_price_change` — the payload's `priceDiff` — unchanged. -/
theorem claim_C1_amended :
    (∀ t0 run_id property_id record_date e,
      (legacyRowFor t0 run_id property_id record_date e).standard_price_change
        = legacyPriceChange e.currentPrice
            (get_previous_standard_price t0 property_id record_date)
      ∧ (legacyRowFor t0 run_id property_id record_date e).standard_previous_price
        = get_previous_standard_price t0 property_id record_date)
    ∧ (∀ t0 run_id property_id es r,
      r ∈ (DbOperations.save_pricing_data t0 run_id property_id es).1 →
      r ∈ t0 ∨ priceChangeConsistent t0 r)
    ∧ (∀ properties t rec run_id r,
      r ∈ (WyndhamDBOperations.save_pricing_data properties t rec run_id).1 →
      r ∈ t ∨ r.standard_price_change = rec.standard_price_change) := by
  refine ⟨fun _ _ _ _ _ => ⟨rfl, rfl⟩, legacy_save_rows, ?_⟩
  intro properties t rec run_id r hr
  unfold WyndhamDBOperations.save_pricing_data at hr
  cases hq : get_property_id_by_uuid properties rec.property_uuid with
  | none => rw [hq] at hr; exact Or.inl hr
  | some pid =>
      rw [hq] at hr
      rcases mem_upsertWith hr with hr | hr | ⟨old, _, _, he⟩
      · exact Or.inl hr
      · exact Or.inr (by rw [hr]; rfl)
      · exact Or.inr (by rw [he]; rfl)

/-- Previously committed row for the claim C1 witness: property 1 has a
stored price of 100 on day 10. -/
def c1PriorRow : UpdateRecordsRow :=
  { property_id := 1, scraping_run_id := none, record_date := 10,
    day_of_week := none, algo_output_price := none, standard_price := some 100,
    standard_previous_price := none, standard_price_change := none,
    competitor_set_avg_price := none, occupancy := none,
    forecasted_occupancy := none, updated_by_rm := false,
    revenue_per_room := none, ly_occupancy := none, ly_adr := none,
    on_the_books_occ := none, arrivals_forecast := none,
    departure_forecast := none, total_rooms := none, ooo := none,
    otb_rooms := none, avl_rooms := none }

/-- Scraped entry for the claim C1 witness: day 11 with current price 106. -/
def c1Entry : LegacyScrapedEntry :=
  { dateOnly := some 11, dayOfWeek := none, currentPrice := some 106,
    systemPrice := none, competitorPrice := none, occBooksPct := none,
    occForecastPct := none, occLyPct := none, stlyAdr := none, revenue := none,
    availableRooms := none, arrivals := none, departures := none }

/-- Witness for the amended claim C1: the row the legacy save persists for the
day-11 entry is delta-consistent with the stored history. -/
theorem claim_C1_amended_witness :
    legacyRowFor [c1PriorRow] (some 3) 1 11 c1Entry ∈ [c1PriorRow]
    ∨ priceChangeConsistent [c1PriorRow] (legacyRowFor [c1PriorRow] (some 3) 1 11 c1Entry) :=
  claim_C1_amended.2.1 [c1PriorRow] (some 3) 1 [c1Entry]
    (legacyRowFor [c1PriorRow] (some 3) 1 11 c1Entry)
    (by
      have h : (DbOperations.save_pricing_data [c1PriorRow] (some 3) 1 [c1Entry]).1
          = [c1PriorRow, legacyRowFor [c1PriorRow] (some 3) 1 11 c1Entry] := rfl
      rw [h]
      exact List.mem_cons_of_mem _ (List.mem_singleton.mpr rfl))

/-! ## Claim C6 -/

/-- Key count at a cons cell whose head matches. -/
theorem keyCount_cons_pos {a : UpdateRecordsRow} {pid : Nat} {d : Int}
    (l : List UpdateRecordsRow) (h : keyRowB a pid d = true) :
    keyCount (a :: l) pid d = 1 + keyCount l pid d := by
  simp [keyCount, List.filter_cons, h, Nat.add_comm]

/-- Key count at a cons cell whose head does not match. -/
theorem keyCount_cons_neg {a : UpdateRecordsRow} {pid : Nat} {d : Int}
    (l : List UpdateRecordsRow) (h : keyRowB a pid d = false) :
    keyCount (a :: l) pid d = keyCount l pid d := by
  simp [keyCount, List.filter_cons, h]

/-- A zero key count means no stored row matches the key. -/
theorem keyCount_zero_no_match {t : List UpdateRecordsRow} {pid : Nat} {d : Int}
    (h : keyCount t pid d = 0) : ∀ r ∈ t, keyRowB r pid d = false := by
  induction t with
  | nil => intro r hr; cases hr
  | cons a rest ih =>
      by_cases ha : keyRowB a pid d = true
      · rw [keyCount_cons_pos rest ha] at h; omega
      · have ha' : keyRowB a pid d = false := Bool.eq_false_iff.mpr ha
        rw [keyCount_cons_neg rest ha'] at h
        intro r hr
        rcases List.mem_cons.mp hr with hr | hr
        · subst hr; exact ha'
        · exact ih h r hr

/-- Upserting the row of the same mapped record a second time leaves the table
unchanged: the conflict is resolved against the row just written, and merging
rewrites every comparable column with the values it already has. -/
theorem upsert_wyndham_idem (t : List UpdateRecordsRow) (pid : Nat)
    (rid1 rid2 : Option Nat) (rec : UpdateRecord) :
    upsertWith mergeWyndham
        (upsertWith mergeWyndham t (wyndhamRowFor pid rid1 rec))
        (wyndhamRowFor pid rid2 rec)
      = upsertWith mergeWyndham t (wyndhamRowFor pid rid1 rec) := by
  induction t with
  | nil =>
      have hk : sameKey (wyndhamRowFor pid rid1 rec) (wyndhamRowFor pid rid2 rec) = true := by
        simp [sameKey, wyndhamRowFor]
      simp only [upsertWith, if_pos hk]
      rfl
  | cons a rest ih =>
      by_cases ha : sameKey a (wyndhamRowFor pid rid1 rec) = true
      · simp only [upsertWith, if_pos ha]
        have ha2 : sameKey (mergeWyndham a (wyndhamRowFor pid rid1 rec))
            (wyndhamRowFor pid rid2 rec) = true := ha
        simp only [upsertWith, if_pos ha2]
        rfl
      · simp only [upsertWith, if_neg ha]
        have ha2 : ¬ sameKey a (wyndhamRowFor pid rid2 rec) = true := ha
        simp only [upsertWith, if_neg ha2]
        rw [ih]

/-- After upserting, exactly one stored row carries the record's key (given
the unique-key invariant on the prior table). -/
theorem keyCount_upsert_wyndhamRow (t : List UpdateRecordsRow) (pid : Nat)
    (rid : Option Nat) (rec : UpdateRecord)
    (hle : keyCount t pid rec.record_date ≤ 1) :
    keyCount (upsertWith mergeWyndham t (wyndhamRowFor pid rid rec))
      pid rec.record_date = 1 := by
  induction t with
  | nil => simp [upsertWith, keyCount, List.filter, keyRowB, wyndhamRowFor]
  | cons a rest ih =>
      by_cases ha : sameKey a (wyndhamRowFor pid rid rec) = true
      · simp only [upsertWith, if_pos ha]
        have hk : keyRowB (mergeWyndham a (wyndhamRowFor pid rid rec))
            pid rec.record_date = true := ha
        have hk0 : keyRowB a pid rec.record_date = true := ha
        rw [keyCount_cons_pos rest hk0] at hle
        have h0 : keyCount rest pid rec.record_date = 0 := by omega
        rw [keyCount_cons_pos rest hk, h0]
      · simp only [upsertWith, if_neg ha]
        have hk : keyRowB a pid rec.record_date = false := by
          cases hkk : keyRowB a pid rec.record_date
          · rfl
          · exact absurd hkk ha
        rw [keyCount_cons_neg rest hk] at hle
        rw [keyCount_cons_neg _ hk]
        exact ih hle

/-- Every stored row carrying the upserted record's key is either the freshly
written row or the merge of the conflicting row with it. -/
theorem upsert_wyndhamRow_key_rows (t : List UpdateRecordsRow) (pid : Nat)
    (rid : Option Nat) (rec : UpdateRecord)
    (hle : keyCount t pid rec.record_date ≤ 1) :
    ∀ r ∈ upsertWith mergeWyndham t (wyndhamRowFor pid rid rec),
      keyRowB r pid rec.record_date = true →
      r = wyndhamRowFor pid rid rec
        ∨ ∃ old, r = mergeWyndham old (wyndhamRowFor pid rid rec) := by
  induction t with
  | nil =>
      intro r hr _
      exact Or.inl (List.mem_singleton.mp hr)
  | cons a rest ih =>
      by_cases ha : sameKey a (wyndhamRowFor pid rid rec) = true
      · simp only [upsertWith, if_pos ha]
        intro r hr hkey
        rcases List.mem_cons.mp hr with hr | hr
        · exact Or.inr ⟨a, hr⟩
        · have hk0 : keyRowB a pid rec.record_date = true := ha
          rw [keyCount_cons_pos rest hk0] at hle
          have h0 : keyCount rest pid rec.record_date = 0 := by omega
          have := keyCount_zero_no_match h0 r hr
          rw [this] at hkey
          cases hkey
      · simp only [upsertWith, if_neg ha]
        intro r hr hkey
        rcases List.mem_cons.mp hr with hr | hr
        · subst hr
          exact absurd hkey ha
        · have hk : keyRowB a pid rec.record_date = false := by
            cases hkk : keyRowB a pid rec.record_date
            · rfl
            · exact absurd hkk ha
          rw [keyCount_cons_neg rest hk] at hle
          exact ih hle r hr hkey

/-- The comparable data columns of a stored row against a mapped record: the
columns listed in the `ON DUPLICATE KEY UPDATE` clause of the Wyndham save. -/
def comparableEq (r : UpdateRecordsRow) (rec : UpdateRecord) : Prop :=
  r.algo_output_price = rec.algo_output_price
  ∧ r.standard_price = rec.standard_price
  ∧ r.standard_previous_price = rec.standard_previous_price
  ∧ r.standard_price_change = rec.standard_price_change
  ∧ r.competitor_set_avg_price = rec.competitor_set_avg_price
  ∧ r.occupancy = rec.occupancy
  ∧ r.forecasted_occupancy = rec.forecasted_occupancy
  ∧ r.updated_by_rm = rec.updated_by_rm
  ∧ r.revenue_per_room = rec.revenue_per_room
  ∧ r.ly_occupancy = rec.ly_occupancy
  ∧ r.ly_adr = rec.ly_adr
  ∧ r.on_the_books_occ = rec.on_the_books_occ
  ∧ r.arrivals_forecast = rec.arrivals_forecast
  ∧ r.departure_forecast = rec.departure_forecast
  ∧ r.total_rooms = rec.total_rooms
  ∧ r.ooo = rec.ooo
  ∧ r.otb_rooms = rec.otb_rooms
  ∧ r.avl_rooms = rec.avl_rooms

/-- The freshly inserted row carries the record's comparable fields. -/
theorem comparableEq_wyndhamRowFor (pid : Nat) (rid : Option Nat)
    (rec : UpdateRecord) : comparableEq (wyndhamRowFor pid rid rec) rec :=
  ⟨rfl, rfl, rfl, rfl, rfl, rfl, rfl, rfl, rfl, rfl, rfl, rfl, rfl, rfl, rfl,
   rfl, rfl, rfl⟩

/-- A merge against the record's row overwrites every comparable field with
the record's values. -/
theorem comparableEq_mergeWyndham (old : UpdateRecordsRow) (pid : Nat)
    (rid : Option Nat) (rec : UpdateRecord) :
    comparableEq (mergeWyndham old (wyndhamRowFor pid rid rec)) rec :=
  ⟨rfl, rfl, rfl, rfl, rfl, rfl, rfl, rfl, rfl, rfl, rfl, rfl, rfl, rfl, rfl,
   rfl, rfl, rfl⟩

/-- Claim C6: upserting the same mapped record twice for one
`(property_id, record_date)` key leaves exactly one stored row whose
comparable fields equal the (second) write — the second upsert changes
nothing, never appends a second row and never merges stale values. -/
theorem claim_C6 :
    ∀ properties t (rec : WyndhamUpdateRecord) rid1 rid2 pid,
      get_property_id_by_uuid properties rec.property_uuid = some pid →
      keyCount t pid rec.record_date ≤ 1 →
      (WyndhamDBOperations.save_pricing_data properties t rec rid1).2 = true
      ∧ (WyndhamDBOperations.save_pricing_data properties
          (WyndhamDBOperations.save_pricing_data properties t rec rid1).1 rec rid2).2 = true
      ∧ (WyndhamDBOperations.save_pricing_data properties
          (WyndhamDBOperations.save_pricing_data properties t rec rid1).1 rec rid2).1
        = (WyndhamDBOperations.save_pricing_data properties t rec rid1).1
      ∧ keyCount (WyndhamDBOperations.save_pricing_data properties
          (WyndhamDBOperations.save_pricing_data properties t rec rid1).1 rec rid2).1
          pid rec.record_date = 1
      ∧ (∀ r ∈ (WyndhamDBOperations.save_pricing_data properties
          (WyndhamDBOperations.save_pricing_data properties t rec rid1).1 rec rid2).1,
          keyRowB r pid rec.record_date = true → comparableEq r rec) := by
  intro properties t rec rid1 rid2 pid h hle
  have e1 : WyndhamDBOperations.save_pricing_data properties t rec rid1
      = (upsertWith mergeWyndham t (wyndhamRowFor pid rid1 rec), true) := by
    unfold WyndhamDBOperations.save_pricing_data
    rw [h]
  have e2 : WyndhamDBOperations.save_pricing_data properties
      (upsertWith mergeWyndham t (wyndhamRowFor pid rid1 rec)) rec rid2
      = (upsertWith mergeWyndham
          (upsertWith mergeWyndham t (wyndhamRowFor pid rid1 rec))
          (wyndhamRowFor pid rid2 rec), true) := by
    unfold WyndhamDBOperations.save_pricing_data
    rw [h]
  rw [e1]
  dsimp only
  rw [e2]
  dsimp only
  rw [upsert_wyndham_idem]
  refine ⟨rfl, rfl, rfl, keyCount_upsert_wyndhamRow t pid rid1 rec hle, ?_⟩
  intro r hr hk
  rcases upsert_wyndhamRow_key_rows t pid rid1 rec hle r hr hk with he | ⟨old, he⟩
  · exact he ▸ comparableEq_wyndhamRowFor pid rid1 rec
  · exact he ▸ comparableEq_mergeWyndham old pid rid1 rec

/-- Mapped record used by the claim C6 witness. -/
def c6Record : WyndhamUpdateRecord :=
  map_wyndham_json_to_update_record "u" 10 (some 50) (some 48) (some 2)
    none (some 20) none false none none (some 3) (some 4) (some 100) (some 5)
    (some 80)

/-- Witness for claim C6: saving the same mapped record twice on an empty
table converges — the second save leaves the stored table unchanged. -/
theorem claim_C6_witness :
    (WyndhamDBOperations.save_pricing_data [("u", 1)]
      (WyndhamDBOperations.save_pricing_data [("u", 1)] [] c6Record (some 1)).1
      c6Record (some 2)).1
    = (WyndhamDBOperations.save_pricing_data [("u", 1)] [] c6Record (some 1)).1 :=
  (claim_C6 [("u", 1)] [] c6Record (some 1) (some 2) 1 rfl (by decide)).2.2.1

/-! ## Claim C3 -/

/-- When the UUID resolves, the Wyndham save upserts the record's row and
reports success. -/
theorem save_resolves (properties : List (String × Nat)) (u : String) (pid : Nat)
    (hres : get_property_id_by_uuid properties u = some pid)
    (t : List UpdateRecordsRow) (rec : WyndhamUpdateRecord) (rid : Option Nat)
    (hu : rec.property_uuid = u) :
    WyndhamDBOperations.save_pricing_data properties t rec rid
      = (upsertWith mergeWyndham t (wyndhamRowFor pid rid rec), true) := by
  unfold WyndhamDBOperations.save_pricing_data
  rw [hu, hres]

/-- Mapping an entry raises exactly when the mandatory date is missing. -/
theorem mapWyndhamRawEntry_error_iff (u : String) (e : RawDateEntry) :
    (∃ msg, mapWyndhamRawEntry u e = .error msg) ↔ e.date = none := by
  constructor
  · rintro ⟨msg, hm⟩
    cases hd : e.date with
    | none => rfl
    | some d =>
        simp only [mapWyndhamRawEntry, hd] at hm
        exact Except.noConfusion hm
  · intro hd
    exact ⟨"KeyError: date", by simp only [mapWyndhamRawEntry, hd]⟩

/-- Counting behaviour of the per-dates loop: with a resolvable UUID, each
date-carrying entry is saved and each dateless entry is skipped. -/
theorem processDates_counts (properties : List (String × Nat)) (u : String)
    (pid : Nat) (hres : get_property_id_by_uuid properties u = some pid) :
    ∀ (es : List RawDateEntry) (t : List UpdateRecordsRow) (s f : Nat),
      (WyndhamV4Api.processDates properties u es (t, s, f)).2.1
        = s + (es.filter (fun e => e.date.isSome)).length
      ∧ (WyndhamV4Api.processDates properties u es (t, s, f)).2.2
        = f + (es.filter (fun e => e.date.isNone)).length := by
  intro es
  induction es with
  | nil => intro t s f; exact ⟨rfl, rfl⟩
  | cons e rest ih =>
      intro t s f
      cases hd : e.date with
      | none =>
          have hm : mapWyndhamRawEntry u e = .error "KeyError: date" := by
            simp only [mapWyndhamRawEntry, hd]
          have hstep : WyndhamV4Api.processDates properties u (e :: rest) (t, s, f)
              = WyndhamV4Api.processDates properties u rest (t, s, f + 1) := by
            simp only [WyndhamV4Api.processDates, hm]
          rw [hstep]
          rcases ih t s (f + 1) with ⟨h1, h2⟩
          refine ⟨by rw [h1]; simp [List.filter_cons, hd], ?_⟩
          rw [h2]
          simp only [List.filter_cons, hd, Option.isNone_none, if_pos,
            List.length_cons]
          omega
      | some d =>
          have hm : mapWyndhamRawEntry u e = .ok (rawRecord u e d) := by
            simp only [mapWyndhamRawEntry, hd]
          have hsave : WyndhamDBOperations.save_pricing_data properties t
              (rawRecord u e d) none
              = (upsertWith mergeWyndham t (wyndhamRowFor pid none (rawRecord u e d)),
                 true) :=
            save_resolves properties u pid hres t (rawRecord u e d) none rfl
          have hstep : WyndhamV4Api.processDates properties u (e :: rest) (t, s, f)
              = WyndhamV4Api.processDates properties u rest
                  (upsertWith mergeWyndham t (wyndhamRowFor pid none (rawRecord u e d)),
                   s + 1, f) := by
            simp only [WyndhamV4Api.processDates, hm, hsave]
          rw [hstep]
          rcases ih _ (s + 1) f with ⟨h1, h2⟩
          refine ⟨?_, by rw [h2]; simp [List.filter_cons, hd]⟩
          rw [h1]
          simp only [List.filter_cons, hd, Option.isSome_some, if_pos,
            List.length_cons]
          omega

/-- A fresh-keyed upsert appends the new row. -/
theorem upsert_fresh (merge : UpdateRecordsRow → UpdateRecordsRow → UpdateRecordsRow)
    (t : List UpdateRecordsRow) (new : UpdateRecordsRow)
    (h : ∀ r ∈ t, sameKey r new = false) :
    upsertWith merge t new = t ++ [new] := by
  induction t with
  | nil => rfl
  | cons a rest ih =>
      have ha := h a (List.mem_cons_self a rest)
      simp only [upsertWith, ha]
      rw [ih (fun r hr => h r (List.mem_cons_of_mem a hr))]
      simp

/-- Key counts add over append. -/
theorem keyCount_append (l1 l2 : List UpdateRecordsRow) (pid : Nat) (d : Int) :
    keyCount (l1 ++ l2) pid d = keyCount l1 pid d + keyCount l2 pid d := by
  simp [keyCount, List.filter_append]

/-- Stored-table growth of the per-dates loop: with a resolvable UUID, fresh
pairwise distinct dates, the loop stores one new row per date-carrying
entry. -/
theorem processDates_table (properties : List (String × Nat)) (u : String)
    (pid : Nat) (hres : get_property_id_by_uuid properties u = some pid) :
    ∀ (es : List RawDateEntry) (t : List UpdateRecordsRow) (s f : Nat),
      (∀ e ∈ es, ∀ d, e.date = some d → keyCount t pid d = 0) →
      (es.filterMap (fun e => e.date)).Nodup →
      (WyndhamV4Api.processDates properties u es (t, s, f)).1.length
        = t.length + (es.filter (fun e => e.date.isSome)).length := by
  intro es
  induction es with
  | nil => intro t s f _ _; rfl
  | cons e rest ih =>
      intro t s f hfresh hnd
      cases hd : e.date with
      | none =>
          have hm : mapWyndhamRawEntry u e = .error "KeyError: date" := by
            simp only [mapWyndhamRawEntry, hd]
          have hstep : WyndhamV4Api.processDates properties u (e :: rest) (t, s, f)
              = WyndhamV4Api.processDates properties u rest (t, s, f + 1) := by
            simp only [WyndhamV4Api.processDates, hm]
          rw [hstep]
          have hnd' : (rest.filterMap (fun e => e.date)).Nodup := by
            simpa [List.filterMap_cons, hd] using hnd
          rw [ih t s (f + 1)
            (fun e2 he2 d2 hd2 => hfresh e2 (List.mem_cons_of_mem e he2) d2 hd2) hnd']
          simp [List.filter_cons, hd]
      | some d =>
          have hm : mapWyndhamRawEntry u e = .ok (rawRecord u e d) := by
            simp only [mapWyndhamRawEntry, hd]
          have hsave : WyndhamDBOperations.save_pricing_data properties t
              (rawRecord u e d) none
              = (upsertWith mergeWyndham t (wyndhamRowFor pid none (rawRecord u e d)),
                 true) :=
            save_resolves properties u pid hres t (rawRecord u e d) none rfl
          have hstep : WyndhamV4Api.processDates properties u (e :: rest) (t, s, f)
              = WyndhamV4Api.processDates properties u rest
                  (upsertWith mergeWyndham t (wyndhamRowFor pid none (rawRecord u e d)),
                   s + 1, f) := by
            simp only [WyndhamV4Api.processDates, hm, hsave]
          rw [hstep]
          have h0 : keyCount t pid d = 0 :=
            hfresh e (List.mem_cons_self e rest) d hd
          have hnomatch : ∀ r ∈ t,
              sameKey r (wyndhamRowFor pid none (rawRecord u e d)) = false :=
            fun r hr => keyCount_zero_no_match h0 r hr
          rw [upsert_fresh mergeWyndham t _ hnomatch]
          have hpair : (∀ x ∈ rest, ¬ x.date = some d)
              ∧ (rest.filterMap (fun e => e.date)).Nodup := by
            simpa [List.filterMap_cons, hd, List.nodup_cons] using hnd
          have hnd' : (rest.filterMap (fun e => e.date)).Nodup := hpair.2
          have hfresh' : ∀ e2 ∈ rest, ∀ d2, e2.date = some d2 →
              keyCount (t ++ [wyndhamRowFor pid none (rawRecord u e d)]) pid d2 = 0 := by
            intro e2 he2 d2 hd2
            have hne : d2 ≠ d := by
              intro hc
              exact hpair.1 e2 he2 (hc ▸ hd2)
            rw [keyCount_append]
            have hz := hfresh e2 (List.mem_cons_of_mem e he2) d2 hd2
            have hk : keyRowB (wyndhamRowFor pid none (rawRecord u e d)) pid d2 = false := by
              show (pid == pid && d == d2) = false
              simp [Ne.symm hne]
            rw [hz]
            simp [keyCount, List.filter, hk]
          rw [ih _ (s + 1) f hfresh' hnd']
          simp [List.filter_cons, hd]
          omega

/-- Splitting a batch by presence of the date field. -/
theorem filter_date_split (es : List RawDateEntry) :
    (es.filter (fun e => e.date.isSome)).length
      + (es.filter (fun e => e.date.isNone)).length = es.length := by
  induction es with
  | nil => rfl
  | cons e rest ih =>
      cases hd : e.date <;> simp [List.filter_cons, hd] <;> omega

/-- Claim C3: the per-entry mapping raises exactly on raw date entries missing
the mandatory date field, and the failure is recoverable per entry: with a
resolvable property UUID the processing loop saves every date-carrying entry
and skips every dateless one; a batch of 5 entries of which exactly 1 lacks a
date (and whose present dates are pairwise distinct) yields 4 saved records, 1
counted skip and 4 stored rows — the batch is not aborted. -/
theorem claim_C3 :
    (∀ u e, (∃ msg, mapWyndhamRawEntry u e = .error msg) ↔ e.date = none)
    ∧ (∀ properties u pid es t s f,
        get_property_id_by_uuid properties u = some pid →
        (WyndhamV4Api.processDates properties u es (t, s, f)).2.1
          = s + (es.filter (fun e => e.date.isSome)).length
        ∧ (WyndhamV4Api.processDates properties u es (t, s, f)).2.2
          = f + (es.filter (fun e => e.date.isNone)).length)
    ∧ (∀ properties u pid es,
        get_property_id_by_uuid properties u = some pid →
        (u == "") = false →
        es.length = 5 →
        (es.filter (fun e => e.date.isNone)).length = 1 →
        (es.filterMap (fun e => e.date)).Nodup →
        (WyndhamV4Api.process_and_save_to_database properties
            [{ id := some u, dates := es }] []).2.1 = 4
        ∧ (WyndhamV4Api.process_and_save_to_database properties
            [{ id := some u, dates := es }] []).2.2 = 1
        ∧ (WyndhamV4Api.process_and_save_to_database properties
            [{ id := some u, dates := es }] []).1.length = 4) := by
  refine ⟨mapWyndhamRawEntry_error_iff, ?_, ?_⟩
  · intro properties u pid es t s f hres
    exact processDates_counts properties u pid hres es t s f
  · intro properties u pid es hres hu h5 h1 hnd
    have hstep : WyndhamV4Api.process_and_save_to_database properties
        [{ id := some u, dates := es }] []
        = WyndhamV4Api.processDates properties u es ([], 0, 0) := by
      simp [WyndhamV4Api.process_and_save_to_database,
        WyndhamV4Api.processProperties, hu]
    rw [hstep]
    obtain ⟨hc1, hc2⟩ := processDates_counts properties u pid hres es [] 0 0
    have hsplit := filter_date_split es
    have hsome : (es.filter (fun e => e.date.isSome)).length = 4 := by omega
    have htab := processDates_table properties u pid hres es [] 0 0
      (fun _ _ _ _ => rfl) hnd
    refine ⟨by rw [hc1, hsome], by rw [hc2, h1], by rw [htab, hsome]; rfl⟩

/-- A minimal raw date entry carrying only (possibly) a date. -/
def c3Entry (d : Option Int) : RawDateEntry :=
  { date := d, price := JField.absent, previousRate := JField.absent,
    priceDiff := JField.absent, compSetAvg := JField.absent,
    onBookPercent := none, forecastPercent := none, priceOverridden := none,
    lyBookingPercent := none, lyRevenue := JField.absent, lyAdr := none,
    previousLrv := JField.absent, arrivals := none, departures := none,
    physicalCapacity := none, outOfOrder := none, onBook := none }

/-- The claim C3 batch: 5 raw date entries, the third missing its date. -/
def c3Entries : List RawDateEntry :=
  [c3Entry (some 1), c3Entry (some 2), c3Entry none, c3Entry (some 3),
   c3Entry (some 4)]

/-- Witness for claim C3: the 5-entry batch with one dateless entry yields 4
saved records, 1 skip, and 4 stored rows. -/
theorem claim_C3_witness :
    (WyndhamV4Api.process_and_save_to_database [("u", 1)]
        [{ id := some "u", dates := c3Entries }] []).2.1 = 4
    ∧ (WyndhamV4Api.process_and_save_to_database [("u", 1)]
        [{ id := some "u", dates := c3Entries }] []).2.2 = 1
    ∧ (WyndhamV4Api.process_and_save_to_database [("u", 1)]
        [{ id := some "u", dates := c3Entries }] []).1.length = 4 :=
  claim_C3.2.2 [("u", 1)] "u" 1 c3Entries rfl rfl rfl (by decide) (by decide)
